import Mathlib

/-!
Verification of the willsmith simulator (src/willsmith/simulator.py).

The simulator module drives external Game/Agent and MDP/Agent collaborators
through episodes.  The collaborators are duck-typed in the source; here they
are embedded as structures of pure functions over abstract state types, and
the drivers are embedded as fuel-indexed functions that thread the
collaborator states explicitly.  Each driver additionally records, for every
loop iteration, the values exchanged with the collaborators (the snapshot
passed to the search, the action, the notification flags, the reward, and so
on), so that the sequencing, counting and notification contracts of the
simulator can be stated and proved.
-/

set_option autoImplicit false

variable {σ α τ : Type}

variable {ρ : Type} [Zero ρ] [Add ρ]

/-- Interface of a Game collaborator, as used by the simulator
(src/willsmith/simulator.py): a fixed player count, a reset to the initial
state, a terminal predicate, the index of the agent whose turn it is, the
state transition for an action, and the winning id read after termination. -/
structure Game (σ α : Type) where
  NUM_PLAYERS : Nat
  reset : σ → σ
  is_terminal : σ → Bool
  current_agent_id : σ → Nat
  take_action : σ → α → σ
  get_winning_id : σ → Nat

/-- Modelled from the spec: the Game base class implementing `copy()` is not
under `src/`; the spec requires a deep, independent snapshot frozen at call
time, which in this value-semantics embedding is exactly the state value at
the moment of the call. -/
def Game.copy (_game : Game σ α) (s : σ) : σ := s

/-- Interface of a game-playing Agent collaborator, with internal state `τ`:
a stable agent id, a reset, the search operation (which receives a snapshot
and a time budget and produces an action, possibly updating the internal
state), and the take_action notification with the own-action flag. -/
structure Agent (σ α τ : Type) where
  agent_id : Nat
  reset : τ → τ
  search : τ → σ → Nat → α × τ
  take_action : τ → α → Bool → τ

/-- Record of one iteration of the game loop of `_run_game`: the live game
state at loop entry, the current-agent index used to select the searching
agent, the agent id of the selected agent, the snapshot passed to its
search, the action returned, the current-agent index re-read by
`_advance_by_action` to compute the own-action flags, the game state after
`take_action`, and the `(agent_id, own_flag)` notification delivered to each
agent in order. -/
structure GIter (σ α : Type) where
  pre : σ
  actingIdx : Nat
  searcherId : Nat
  snapshot : σ
  action : α
  flagIdx : Nat
  post : σ
  notifs : List (Nat × Bool)
deriving Repr, DecidableEq

/-- Outcome of an entry point: the configuration error raised before any
episode runs, a run that never returned (fuel exhaustion or an index error
in the embedding), or a normal return. -/
inductive RunOutcome (R : Type) where
  | configError (msg : String)
  | diverged
  | ok (r : R)

/-- The message of the configuration error raised by `run_games`. -/
def wrongAgentsMsg : String := "Incorrect number of agents for game type."

/-- Embedding of `_advance_by_action(game, agents, action)`: read the
current agent id, apply the action to the game, then notify every agent with
the own-action flag `agent_id == agent_id_for_action`.  Returns the new game
state, the updated agents, the id read for the flag computation, and the
notification list actually delivered. -/
def _advance_by_action (game : Game σ α) (s : σ)
    (agents : List (Agent σ α τ × τ)) (action : α) :
    σ × List (Agent σ α τ × τ) × Nat × List (Nat × Bool) :=
  let agent_id_for_action := game.current_agent_id s
  let s2 := game.take_action s action
  let agents2 := agents.map fun p =>
    (p.1, p.1.take_action p.2 action (p.1.agent_id == agent_id_for_action))
  let notifs := agents.map fun p =>
    (p.1.agent_id, p.1.agent_id == agent_id_for_action)
  (s2, agents2, agent_id_for_action, notifs)

/-- Embedding of the main loop of `_run_game`: while the game is not
terminal, select the acting agent by list position at the current agent
index, call its search on a snapshot of the game, and advance by the
returned action.  The fuel bounds the number of iterations; `none` models a
run that never returns (including an out-of-range agent index, which raises
in the source).  The returned list records one `GIter` per iteration. -/
def gameLoop (game : Game σ α) (time_allowed : Nat) :
    Nat → σ → List (Agent σ α τ × τ) →
    Option (σ × List (Agent σ α τ × τ) × List (GIter σ α))
  | 0, _, _ => none
  | fuel + 1, s, agents =>
    if game.is_terminal s then some (s, agents, [])
    else
      match agents[game.current_agent_id s]? with
      | none => none
      | some p =>
        let snapshot := Game.copy game s
        let sr := p.1.search p.2 snapshot time_allowed
        let agents1 := agents.set (game.current_agent_id s) (p.1, sr.2)
        let adv := _advance_by_action game s agents1 sr.1
        match gameLoop game time_allowed fuel adv.1 adv.2.1 with
        | none => none
        | some rest =>
          some (rest.1, rest.2.1,
            { pre := s, actingIdx := game.current_agent_id s,
              searcherId := p.1.agent_id, snapshot := snapshot,
              action := sr.1, flagIdx := adv.2.2.1, post := adv.1,
              notifs := adv.2.2.2 } :: rest.2.2)

/-- Embedding of `_run_game(game, agents, time_allowed)`: reset the game and
every agent, run the loop to termination, then read the winning id.
Returns the final game state, the final agents, the iteration records, and
the winning id that was read. -/
def _run_game (fuel : Nat) (game : Game σ α) (s : σ)
    (agents : List (Agent σ α τ × τ)) (time_allowed : Nat) :
    Option (σ × List (Agent σ α τ × τ) × List (GIter σ α) × Nat) :=
  let s1 := game.reset s
  let agents1 := agents.map fun p => (p.1, p.1.reset p.2)
  match gameLoop game time_allowed fuel s1 agents1 with
  | none => none
  | some r => some (r.1, r.2.1, r.2.2, game.get_winning_id r.1)

/-- The inner loop of `run_games` over `num_games` episodes, threading the
live game and agents through the episodes and collecting, per episode, the
iteration records and the winning id read at its end. -/
def gamesLoop (fuel : Nat) (game : Game σ α) (time_allowed : Nat) :
    Nat → σ → List (Agent σ α τ × τ) →
    Option (σ × List (Agent σ α τ × τ) × List (List (GIter σ α) × Nat))
  | 0, s, agents => some (s, agents, [])
  | n + 1, s, agents =>
    match _run_game fuel game s agents time_allowed with
    | none => none
    | some r =>
      match gamesLoop fuel game time_allowed n r.1 r.2.1 with
      | none => none
      | some r2 => some (r2.1, r2.2.1, (r.2.2.1, r.2.2.2) :: r2.2.2)

/-- Embedding of `run_games(game, agents, time_allowed, num_games)`: if the
number of agents differs from the game's `NUM_PLAYERS`, fail with the
configuration error before anything else runs; otherwise play the game
`num_games` times. -/
def run_games (fuel : Nat) (game : Game σ α)
    (agents : List (Agent σ α τ × τ)) (time_allowed num_games : Nat)
    (s : σ) :
    RunOutcome (σ × List (Agent σ α τ × τ) × List (List (GIter σ α) × Nat)) :=
  if agents.length ≠ game.NUM_PLAYERS then
    RunOutcome.configError wrongAgentsMsg
  else
    match gamesLoop fuel game time_allowed num_games s agents with
    | none => RunOutcome.diverged
    | some r => RunOutcome.ok r

/-- The agent ids of an agent list, in list order. -/
def agentIds (agents : List (Agent σ α τ × τ)) : List Nat :=
  agents.map fun p => p.1.agent_id

/-- Events of the calls the game driver makes on its collaborators. -/
inductive GEvent (σ α : Type) where
  | game_reset
  | agent_reset (agent_id : Nat)
  | is_terminal (res : Bool)
  | copy (snapshot : σ)
  | search (actingIdx searcherId : Nat) (snapshot : σ) (action : α)
  | game_take_action (action : α)
  | agent_take_action (agent_id : Nat) (action : α) (own : Bool)
  | get_winning_id (res : Nat)
deriving Repr, DecidableEq

/-- The calls made during one iteration of the game loop, in source order:
the terminal check, the copy, the search, the game transition, and one
notification per agent. -/
def gIterTrace (it : GIter σ α) : List (GEvent σ α) :=
  GEvent.is_terminal false :: GEvent.copy it.snapshot ::
  GEvent.search it.actingIdx it.searcherId it.snapshot it.action ::
  GEvent.game_take_action it.action ::
  it.notifs.map fun pr => GEvent.agent_take_action pr.1 it.action pr.2

/-- The calls made during one episode of `_run_game`, in source order: the
game reset, the agent resets, the loop iterations, the final terminal
check, and the read of the winning id. -/
def episodeTrace (ids : List Nat) (iters : List (GIter σ α)) (w : Nat) :
    List (GEvent σ α) :=
  GEvent.game_reset :: (ids.map GEvent.agent_reset ++
    (iters.flatMap gIterTrace ++ [GEvent.is_terminal true, GEvent.get_winning_id w]))

/-- The calls a `run_games` outcome made on its collaborators: none at all
on the configuration-error path, and the concatenation of the episode
traces on the normal path. -/
def run_gamesTrace (ids : List Nat)
    (out : RunOutcome (σ × List (Agent σ α τ × τ) × List (List (GIter σ α) × Nat))) :
    List (GEvent σ α) :=
  match out with
  | RunOutcome.ok r => (r.2.2.map fun pr => episodeTrace ids pr.1 pr.2).flatten
  | _ => []

/-- Number of `take_action` calls on the game in a trace. -/
def countGameTA (evs : List (GEvent σ α)) : Nat :=
  evs.countP fun e => match e with
    | GEvent.game_take_action _ => true
    | _ => false

/-- Number of `take_action` notifications delivered to the agent with the
given id in a trace. -/
def countAgentTA (id : Nat) (evs : List (GEvent σ α)) : Nat :=
  evs.countP fun e => match e with
    | GEvent.agent_take_action id2 _ _ => id2 == id
    | _ => false

/-- Number of `take_action` notifications carrying the own-action flag true
in a trace. -/
def countOwnTrue (evs : List (GEvent σ α)) : Nat :=
  evs.countP fun e => match e with
    | GEvent.agent_take_action _ _ own => own
    | _ => false

/-- Number of agent `search` calls in a trace. -/
def countSearch (evs : List (GEvent σ α)) : Nat :=
  evs.countP fun e => match e with
    | GEvent.search _ _ _ _ => true
    | _ => false

/-- The winning ids read in a trace, in order. -/
def winnersOf (evs : List (GEvent σ α)) : List Nat :=
  evs.filterMap fun e => match e with
    | GEvent.get_winning_id w => some w
    | _ => none

/-- Step-indexed invariant tying the iteration records of the game loop to
the collaborator interfaces: each record's fields are exactly the values
the source reads at the corresponding call sites, and consecutive records
are threaded through `take_action`. -/
def gChain (game : Game σ α) (ids : List Nat) :
    σ → List (GIter σ α) → σ → Prop
  | s, [], sf => sf = s ∧ game.is_terminal s = true
  | s, it :: rest, sf =>
      it.pre = s ∧ game.is_terminal s = false ∧
      it.actingIdx = game.current_agent_id s ∧
      ids[it.actingIdx]? = some it.searcherId ∧
      it.snapshot = Game.copy game s ∧
      it.flagIdx = game.current_agent_id s ∧
      it.post = game.take_action s it.action ∧
      it.notifs = ids.map (fun id => (id, id == it.flagIdx)) ∧
      gChain game ids it.post rest sf

/-- The inner dynamics of an MDP collaborator: an initial state, a step
function returning the next inner state together with the scalar reward and
the terminal flag, and the terminal predicate.  Rewards are embedded as
values of an arbitrary scalar type `ρ` (the driver never computes with
rewards, it only passes them along). -/
structure MDPSpec (σ α ρ : Type) where
  init : σ
  stepInner : σ → α → σ × ρ × Bool
  is_terminalInner : σ → Bool

/-- Modelled from the spec: the MDP base class maintaining the readable
`timesteps` and `total_reward` counters is not under `src/`; per the spec
the environment exposes the cumulative reward and the elapsed timestep
count.  The driver-visible MDP state carries the inner state together with
those two counters. -/
structure MDPState (σ ρ : Type) where
  inner : σ
  timesteps : Nat
  total_reward : ρ
deriving Repr, DecidableEq

/-- Modelled from the spec: `reset()` of the MDP base class is not under
`src/`; it restores the initial state and, the counters being per-episode
bookkeeping, zeroes `timesteps` and `total_reward`. -/
def MDP.reset (m : MDPSpec σ α ρ) (_s : MDPState σ ρ) : MDPState σ ρ :=
  { inner := m.init, timesteps := 0, total_reward := 0 }

/-- Modelled from the spec: `step(action)` of the MDP base class is not
under `src/`; it advances the inner dynamics by one step, returns the
scalar reward and the terminal flag, counts one elapsed timestep, and
accumulates the reward. -/
def MDP.step (m : MDPSpec σ α ρ) (s : MDPState σ ρ) (action : α) :
    MDPState σ ρ × ρ × Bool :=
  let st := m.stepInner s.inner action
  ({ inner := st.1, timesteps := s.timesteps + 1,
     total_reward := s.total_reward + st.2.1 }, st.2.1, st.2.2)

/-- The terminal predicate of the MDP, read by the driver's loop guard. -/
def MDP.is_terminal (m : MDPSpec σ α ρ) (s : MDPState σ ρ) : Bool :=
  m.is_terminalInner s.inner

/-- Modelled from the spec: `copy()` of the MDP base class is not under
`src/`; the spec requires a deep, independent snapshot frozen at call time,
which in this value-semantics embedding is exactly the state value at the
moment of the call. -/
def MDP.copy (_m : MDPSpec σ α ρ) (s : MDPState σ ρ) : MDPState σ ρ := s

/-- The `timesteps` counter read by the driver. -/
def MDP.timesteps (s : MDPState σ ρ) : Nat := s.timesteps

/-- The `total_reward` counter read by the driver. -/
def MDP.total_reward (s : MDPState σ ρ) : ρ := s.total_reward

/-- Interface of a learning Agent collaborator (MDP mode), with internal
state `τ`: action selection from a snapshot, and the learning update
receiving the pre-transition snapshot, the live post-step MDP, the reward,
the action and the terminal flag. -/
structure MDPAgent (σ α ρ τ : Type) where
  get_next_action : τ → MDPState σ ρ → α × τ
  update : τ → MDPState σ ρ → MDPState σ ρ → ρ → α → Bool → τ

/-- Record of one iteration of the trial loop of `_run_trial`: the live MDP
state at loop entry, the snapshot passed to `get_next_action`, the chosen
action, the `prev_state` snapshot taken just before the step, the reward
and terminal flag returned by the step, and the live MDP state after the
step (which is also what `update` receives as its live-MDP argument). -/
structure MIter (σ α ρ : Type) where
  pre : MDPState σ ρ
  gnaSnap : MDPState σ ρ
  action : α
  prevSnap : MDPState σ ρ
  reward : ρ
  terminal : Bool
  post : MDPState σ ρ
deriving Repr, DecidableEq

/-- Embedding of the main loop of `_run_trial`: while the MDP is not
terminal, ask the agent for an action on a snapshot, take the `prev_state`
snapshot, step the MDP, and pass everything to the agent's update.  The
fuel bounds the number of iterations; the returned list records one `MIter`
per iteration. -/
def trialLoop (m : MDPSpec σ α ρ) (ag : MDPAgent σ α ρ τ) :
    Nat → MDPState σ ρ → τ → Option (MDPState σ ρ × τ × List (MIter σ α ρ))
  | 0, _, _ => none
  | fuel + 1, s, t =>
    if MDP.is_terminal m s then some (s, t, [])
    else
      let gnaSnap := MDP.copy m s
      let ar := ag.get_next_action t gnaSnap
      let prev_state := MDP.copy m s
      let st := MDP.step m s ar.1
      let t2 := ag.update ar.2 prev_state st.1 st.2.1 ar.1 st.2.2
      match trialLoop m ag fuel st.1 t2 with
      | none => none
      | some rest =>
        some (rest.1, rest.2.1,
          { pre := s, gnaSnap := gnaSnap, action := ar.1,
            prevSnap := prev_state, reward := st.2.1,
            terminal := st.2.2, post := st.1 } :: rest.2.2)

/-- Embedding of `_run_trial(mdp, agent)`: reset the MDP, run the loop to a
terminal state, and return `mdp.timesteps` as the trial's step count,
together with the final MDP state, the final agent state, and the
iteration records. -/
def _run_trial (fuel : Nat) (m : MDPSpec σ α ρ) (ag : MDPAgent σ α ρ τ)
    (s : MDPState σ ρ) (t : τ) :
    Option (Nat × MDPState σ ρ × τ × List (MIter σ α ρ)) :=
  match trialLoop m ag fuel (MDP.reset m s) t with
  | none => none
  | some r => some (MDP.timesteps r.1, r.1, r.2.1, r.2.2)

/-- The inner loop of `run_mdp` over `num_trials` trials, threading the
live MDP and agent and collecting, per trial, the reported step count and
the iteration records. -/
def mdpLoop (fuel : Nat) (m : MDPSpec σ α ρ) (ag : MDPAgent σ α ρ τ) :
    Nat → MDPState σ ρ → τ →
    Option (MDPState σ ρ × τ × List (Nat × List (MIter σ α ρ)))
  | 0, s, t => some (s, t, [])
  | n + 1, s, t =>
    match _run_trial fuel m ag s t with
    | none => none
    | some r =>
      match mdpLoop fuel m ag n r.2.1 r.2.2.1 with
      | none => none
      | some r2 => some (r2.1, r2.2.1, (r.1, r.2.2.2) :: r2.2.2)

/-- Embedding of `run_mdp(mdp, agent, num_trials)`. -/
def run_mdp (fuel : Nat) (m : MDPSpec σ α ρ) (ag : MDPAgent σ α ρ τ)
    (num_trials : Nat) (s : MDPState σ ρ) (t : τ) :
    RunOutcome (MDPState σ ρ × τ × List (Nat × List (MIter σ α ρ))) :=
  match mdpLoop fuel m ag num_trials s t with
  | none => RunOutcome.diverged
  | some r => RunOutcome.ok r

/-- Events of the calls the MDP driver makes on its collaborators. -/
inductive MDPEvent (σ α ρ : Type) where
  | reset
  | is_terminal (res : Bool)
  | copy (snapshot : MDPState σ ρ)
  | get_next_action (snapshot : MDPState σ ρ) (action : α)
  | step (action : α) (reward : ρ) (terminal : Bool)
  | update (prev post : MDPState σ ρ) (reward : ρ) (action : α) (terminal : Bool)
deriving Repr, DecidableEq

/-- The calls made during one iteration of the trial loop, in source order:
the terminal check, the copy for the action query, the action query, the
copy for `prev_state`, the step, and the update. -/
def mIterTrace (it : MIter σ α ρ) : List (MDPEvent σ α ρ) :=
  [MDPEvent.is_terminal false, MDPEvent.copy it.gnaSnap,
   MDPEvent.get_next_action it.gnaSnap it.action, MDPEvent.copy it.prevSnap,
   MDPEvent.step it.action it.reward it.terminal,
   MDPEvent.update it.prevSnap it.post it.reward it.action it.terminal]

/-- The calls made during one trial of `_run_trial`, in source order. -/
def trialTrace (iters : List (MIter σ α ρ)) : List (MDPEvent σ α ρ) :=
  MDPEvent.reset :: (iters.flatMap mIterTrace ++ [MDPEvent.is_terminal true])

/-- Number of `step` calls on the MDP in a trace. -/
def mStepCount (evs : List (MDPEvent σ α ρ)) : Nat :=
  evs.countP fun e => match e with
    | MDPEvent.step _ _ _ => true
    | _ => false

/-- Number of `copy` calls on the MDP in a trace. -/
def mCopyCount (evs : List (MDPEvent σ α ρ)) : Nat :=
  evs.countP fun e => match e with
    | MDPEvent.copy _ => true
    | _ => false

/-- Number of agent `update` calls in a trace. -/
def mUpdateCount (evs : List (MDPEvent σ α ρ)) : Nat :=
  evs.countP fun e => match e with
    | MDPEvent.update _ _ _ _ _ => true
    | _ => false

/-- The `(action, reward, terminal)` triples of the `step` calls of a
trace, in order. -/
def mStepTriples (evs : List (MDPEvent σ α ρ)) : List (α × ρ × Bool) :=
  evs.filterMap fun e => match e with
    | MDPEvent.step a r term => some (a, r, term)
    | _ => none

/-- The `(action, reward, terminal)` triples of the agent `update` calls of
a trace, in order. -/
def mUpdateTriples (evs : List (MDPEvent σ α ρ)) : List (α × ρ × Bool) :=
  evs.filterMap fun e => match e with
    | MDPEvent.update _ _ r a term => some (a, r, term)
    | _ => none

/-- Step-indexed invariant tying the iteration records of the trial loop to
the collaborator interfaces: each record's fields are exactly the values
the source reads at the corresponding call sites, and consecutive records
are threaded through `MDP.step`. -/
def mChain (m : MDPSpec σ α ρ) :
    MDPState σ ρ → List (MIter σ α ρ) → MDPState σ ρ → Prop
  | s, [], sf => sf = s ∧ MDP.is_terminal m s = true
  | s, it :: rest, sf =>
      it.pre = s ∧ MDP.is_terminal m s = false ∧
      it.gnaSnap = MDP.copy m s ∧ it.prevSnap = MDP.copy m s ∧
      MDP.step m s it.action = (it.post, it.reward, it.terminal) ∧
      mChain m it.post rest sf

/-- A deterministic 2-player test game: the state counts the moves made,
players alternate, the game is terminal after exactly 3 moves, and the
hardcoded terminal outcome is 7. -/
def c6game : Game Nat Nat :=
  { NUM_PLAYERS := 2
    reset := fun _ => 0
    is_terminal := fun s => decide (3 ≤ s)
    current_agent_id := fun s => s % 2
    take_action := fun s _ => s + 1
    get_winning_id := fun _ => 7 }

/-- A deterministic stub agent with the given agent id; its internal state
counts its searches and its search always returns action 0. -/
def stubAgent (i : Nat) : Agent Nat Nat Nat :=
  { agent_id := i
    reset := fun _ => 0
    search := fun t _ _ => (0, t + 1)
    take_action := fun t _ _ => t }

/-- Two stub agents whose agent ids equal their list positions. -/
def c6agents : List (Agent Nat Nat Nat × Nat) :=
  [(stubAgent 0, 0), (stubAgent 1, 0)]

/-- A deterministic 1-player test game terminal after exactly one move. -/
def cexGame : Game Nat Nat :=
  { NUM_PLAYERS := 1
    reset := fun _ => 0
    is_terminal := fun s => decide (1 ≤ s)
    current_agent_id := fun _ => 0
    take_action := fun s _ => s + 1
    get_winning_id := fun _ => 0 }

/-- A single stub agent whose agent id, 5, differs from its list position,
0. -/
def cexAgents : List (Agent Nat Nat Nat × Nat) :=
  [(stubAgent 5, 0)]

/-- A deterministic test MDP with a fixed 5-step trajectory and constant
reward 1 per step. -/
def c7mdp : MDPSpec Nat Nat Int :=
  { init := 0
    stepInner := fun s _ => (s + 1, 1, decide (5 ≤ s + 1))
    is_terminalInner := fun s => decide (5 ≤ s) }

/-- A stub learning agent that always chooses action 0 and ignores
updates. -/
def c7agent : MDPAgent Nat Nat Int Unit :=
  { get_next_action := fun t _ => (0, t)
    update := fun t _ _ _ _ _ => t }

/-- An arbitrary starting MDP state for the test trials. -/
def c7start : MDPState Nat Int :=
  { inner := 0, timesteps := 0, total_reward := 0 }

/-- A test game that is terminal immediately after reset. -/
def c9game : Game Nat Nat :=
  { NUM_PLAYERS := 1
    reset := fun _ => 0
    is_terminal := fun _ => true
    current_agent_id := fun _ => 0
    take_action := fun s _ => s
    get_winning_id := fun _ => 3 }

/-- A test MDP that is terminal immediately after reset. -/
def c9mdp : MDPSpec Nat Nat Int :=
  { init := 0
    stepInner := fun s _ => (s, 0, true)
    is_terminalInner := fun _ => true }

/-- A probe game over a countable state space: the given index is always
the current agent and the game ends after a single move.  It is used to
show that correct own-action flags force the agent ids to equal the list
positions. -/
def probeGame (α : Type) (n i : Nat) : Game Nat α :=
  { NUM_PLAYERS := n
    reset := fun _ => 0
    is_terminal := fun s => decide (1 ≤ s)
    current_agent_id := fun _ => i
    take_action := fun s _ => s + 1
    get_winning_id := fun _ => 0 }

/-- The own-action flags of a fixed agent list are correct when, in every
completed episode of every game over a countable state space, in every
transition the agent that searched receives the flag true and every agent
with a different id receives the flag false. -/
def ownFlagsCorrect {α τ : Type} (agents : List (Agent Nat α τ × τ)) : Prop :=
  ∀ (game : Game Nat α) (fuel time_allowed s : Nat)
    (r : Nat × List (Agent Nat α τ × τ) × List (GIter Nat α) × Nat),
    _run_game fuel game s agents time_allowed = some r →
    ∀ it ∈ r.2.2.1, (it.searcherId, true) ∈ it.notifs ∧
      ∀ pr ∈ it.notifs, pr.1 ≠ it.searcherId → pr.2 = false

/-- The three iteration records of one episode of `c6game` with
`c6agents`. -/
def c6iters : List (GIter Nat Nat) :=
  [{ pre := 0, actingIdx := 0, searcherId := 0, snapshot := 0, action := 0,
     flagIdx := 0, post := 1, notifs := [(0, true), (1, false)] },
   { pre := 1, actingIdx := 1, searcherId := 1, snapshot := 1, action := 0,
     flagIdx := 1, post := 2, notifs := [(0, false), (1, true)] },
   { pre := 2, actingIdx := 0, searcherId := 0, snapshot := 2, action := 0,
     flagIdx := 0, post := 3, notifs := [(0, true), (1, false)] }]

/-- The five iteration records of one trial of `c7mdp` with `c7agent`. -/
def c7iters : List (MIter Nat Nat Int) :=
  [{ pre := ⟨0, 0, 0⟩, gnaSnap := ⟨0, 0, 0⟩, action := 0, prevSnap := ⟨0, 0, 0⟩,
     reward := 1, terminal := false, post := ⟨1, 1, 1⟩ },
   { pre := ⟨1, 1, 1⟩, gnaSnap := ⟨1, 1, 1⟩, action := 0, prevSnap := ⟨1, 1, 1⟩,
     reward := 1, terminal := false, post := ⟨2, 2, 2⟩ },
   { pre := ⟨2, 2, 2⟩, gnaSnap := ⟨2, 2, 2⟩, action := 0, prevSnap := ⟨2, 2, 2⟩,
     reward := 1, terminal := false, post := ⟨3, 3, 3⟩ },
   { pre := ⟨3, 3, 3⟩, gnaSnap := ⟨3, 3, 3⟩, action := 0, prevSnap := ⟨3, 3, 3⟩,
     reward := 1, terminal := false, post := ⟨4, 4, 4⟩ },
   { pre := ⟨4, 4, 4⟩, gnaSnap := ⟨4, 4, 4⟩, action := 0, prevSnap := ⟨4, 4, 4⟩,
     reward := 1, terminal := true, post := ⟨5, 5, 5⟩ }]

/-- The final MDP state of one trial of `c7mdp`. -/
def c7final : MDPState Nat Int := ⟨5, 5, 5⟩

lemma sum_map_one {β : Type} (l : List β) : (l.map fun _ => (1 : Nat)).sum = l.length := by
  induction l with
  | nil => rfl
  | cons b l ih => simp [ih, Nat.add_comm]

lemma countP_flatMap {β γ : Type} (p : γ → Bool) (f : β → List γ) (l : List β) :
    (l.flatMap f).countP p = (l.map fun b => (f b).countP p).sum := by
  induction l with
  | nil => rfl
  | cons b l ih => simp [List.countP_append, ih]

lemma filterMap_flatMap {β γ δ : Type} (g : γ → Option δ) (f : β → List γ) (l : List β) :
    (l.flatMap f).filterMap g = l.flatMap fun b => (f b).filterMap g := by
  induction l with
  | nil => rfl
  | cons b l ih => simp [List.filterMap_append, ih]

lemma set_get_eq {β : Type} (l : List β) (i : Nat) (b : β) (h : l[i]? = some b) :
    l.set i b = l := by
  induction l generalizing i with
  | nil => simp at h
  | cons x l ih =>
    cases i with
    | zero =>
      simp at h
      simp [h]
    | succ i =>
      simp at h
      simp [ih i h]

lemma agentIds_map_reset (agents : List (Agent σ α τ × τ)) :
    agentIds (agents.map fun p => (p.1, p.1.reset p.2)) = agentIds agents := by
  simp [agentIds, List.map_map]

lemma agentIds_set (agents : List (Agent σ α τ × τ)) (i : Nat)
    (p : Agent σ α τ × τ) (t2 : τ) (h : agents[i]? = some p) :
    agentIds (agents.set i (p.1, t2)) = agentIds agents := by
  induction agents generalizing i with
  | nil => simp at h
  | cons x l ih =>
    cases i with
    | zero =>
      simp at h
      simp [agentIds, h]
    | succ i =>
      simp at h
      simpa [agentIds] using ih i h

lemma getElem?_agentIds (agents : List (Agent σ α τ × τ)) (i : Nat) :
    (agentIds agents)[i]? = agents[i]?.map fun p => p.1.agent_id := by
  simp [agentIds]

lemma advance_fst (game : Game σ α) (s : σ) (agents : List (Agent σ α τ × τ)) (a : α) :
    (_advance_by_action game s agents a).1 = game.take_action s a := rfl

lemma advance_flagIdx (game : Game σ α) (s : σ) (agents : List (Agent σ α τ × τ)) (a : α) :
    (_advance_by_action game s agents a).2.2.1 = game.current_agent_id s := rfl

lemma advance_agentIds (game : Game σ α) (s : σ) (agents : List (Agent σ α τ × τ)) (a : α) :
    agentIds (_advance_by_action game s agents a).2.1 = agentIds agents := by
  simp [_advance_by_action, agentIds, List.map_map]

lemma advance_notifs (game : Game σ α) (s : σ) (agents : List (Agent σ α τ × τ)) (a : α) :
    (_advance_by_action game s agents a).2.2.2 =
      (agentIds agents).map fun id => (id, id == game.current_agent_id s) := by
  simp [_advance_by_action, agentIds, List.map_map]

lemma gameLoop_inv (game : Game σ α) (time_allowed : Nat) :
    ∀ (fuel : Nat) (s : σ) (agents : List (Agent σ α τ × τ))
      (r : σ × List (Agent σ α τ × τ) × List (GIter σ α)),
      gameLoop game time_allowed fuel s agents = some r →
      agentIds r.2.1 = agentIds agents ∧
      gChain game (agentIds agents) s r.2.2 r.1 := by
  intro fuel
  induction fuel with
  | zero =>
    intro s agents r h
    simp [gameLoop] at h
  | succ fuel ih =>
    intro s agents r h
    simp only [gameLoop] at h
    split at h
    · rename_i hterm
      cases h
      exact ⟨rfl, rfl, hterm⟩
    · rename_i hterm
      have hfalse : game.is_terminal s = false := by simpa using hterm
      split at h
      · cases h
      · rename_i p hget
        split at h
        · cases h
        · rename_i rest hrec
          cases h
          have hids1 : agentIds (agents.set (game.current_agent_id s)
              (p.1, (p.1.search p.2 (Game.copy game s) time_allowed).2)) =
              agentIds agents :=
            agentIds_set agents _ p _ hget
          obtain ⟨ha, hc⟩ := ih _ _ _ hrec
          rw [advance_agentIds, hids1] at ha hc
          rw [advance_fst] at hc
          refine ⟨ha, rfl, hfalse, rfl, ?_, rfl, rfl, rfl, ?_, ?_⟩
          · rw [getElem?_agentIds, hget]
            rfl
          · rw [advance_notifs, advance_flagIdx, hids1]
          · exact hc

lemma gChain_forall (game : Game σ α) (ids : List Nat) :
    ∀ (s : σ) (iters : List (GIter σ α)) (sf : σ), gChain game ids s iters sf →
      ∀ it ∈ iters,
        game.is_terminal it.pre = false ∧
        it.actingIdx = game.current_agent_id it.pre ∧
        ids[it.actingIdx]? = some it.searcherId ∧
        it.snapshot = it.pre ∧
        it.flagIdx = it.actingIdx ∧
        it.post = game.take_action it.pre it.action ∧
        it.notifs = ids.map fun id => (id, id == it.flagIdx) := by
  intro s iters
  induction iters generalizing s with
  | nil =>
    intro sf _ it hit
    simp at hit
  | cons it2 rest ih =>
    intro sf h it hit
    obtain ⟨hpre, hterm, hact, hsid, hsnap, hflag, hpost, hnot, hrest⟩ := h
    rcases List.mem_cons.mp hit with rfl | hmem
    · subst hpre
      exact ⟨hterm, hact, hsid, hsnap, hflag.trans hact.symm, hpost, hnot⟩
    · exact ih _ _ hrest it hmem

lemma gChain_nil_terminal (game : Game σ α) (ids : List Nat) (s sf : σ)
    (h : gChain game ids s [] sf) : sf = s ∧ game.is_terminal s = true := h

lemma run_game_inv (fuel : Nat) (game : Game σ α) (s : σ)
    (agents : List (Agent σ α τ × τ)) (time_allowed : Nat)
    (r : σ × List (Agent σ α τ × τ) × List (GIter σ α) × Nat)
    (h : _run_game fuel game s agents time_allowed = some r) :
    agentIds r.2.1 = agentIds agents ∧
    gChain game (agentIds agents) (game.reset s) r.2.2.1 r.1 ∧
    r.2.2.2 = game.get_winning_id r.1 := by
  simp only [_run_game] at h
  split at h
  · cases h
  · rename_i rr hrr
    cases h
    obtain ⟨ha, hc⟩ := gameLoop_inv game time_allowed fuel _ _ _ hrr
    rw [agentIds_map_reset] at ha hc
    exact ⟨ha, hc, rfl⟩

lemma gamesLoop_inv (fuel : Nat) (game : Game σ α) (time_allowed : Nat) :
    ∀ (n : Nat) (s : σ) (agents : List (Agent σ α τ × τ))
      (r : σ × List (Agent σ α τ × τ) × List (List (GIter σ α) × Nat)),
      gamesLoop fuel game time_allowed n s agents = some r →
      agentIds r.2.1 = agentIds agents ∧
      ∀ pr ∈ r.2.2, ∃ s0 sf,
        gChain game (agentIds agents) (game.reset s0) pr.1 sf ∧
        pr.2 = game.get_winning_id sf := by
  intro n
  induction n with
  | zero =>
    intro s agents r h
    simp only [gamesLoop] at h
    cases h
    exact ⟨rfl, fun pr hpr => absurd hpr (by simp)⟩
  | succ n ih =>
    intro s agents r h
    simp only [gamesLoop] at h
    split at h
    · cases h
    · rename_i r1 hr1
      split at h
      · cases h
      · rename_i r2 hr2
        cases h
        obtain ⟨ha1, hc1, hw1⟩ := run_game_inv fuel game s agents time_allowed r1 hr1
        obtain ⟨ha2, hall⟩ := ih _ _ _ hr2
        rw [ha1] at ha2 hall
        refine ⟨ha2, ?_⟩
        intro pr hpr
        rcases List.mem_cons.mp hpr with rfl | hmem
        · exact ⟨s, r1.1, hc1, hw1⟩
        · exact hall pr hmem

lemma run_games_ok (fuel : Nat) (game : Game σ α)
    (agents : List (Agent σ α τ × τ)) (time_allowed num_games : Nat) (s : σ)
    (r : σ × List (Agent σ α τ × τ) × List (List (GIter σ α) × Nat))
    (h : run_games fuel game agents time_allowed num_games s = RunOutcome.ok r) :
    agents.length = game.NUM_PLAYERS ∧
    gamesLoop fuel game time_allowed num_games s agents = some r := by
  simp only [run_games] at h
  split at h
  · cases h
  · rename_i hlen
    split at h
    · cases h
    · rename_i rr hrr
      cases h
      exact ⟨not_not.mp hlen, hrr⟩

omit [Zero ρ] in
lemma trialLoop_inv (m : MDPSpec σ α ρ) (ag : MDPAgent σ α ρ τ) :
    ∀ (fuel : Nat) (s : MDPState σ ρ) (t : τ)
      (r : MDPState σ ρ × τ × List (MIter σ α ρ)),
      trialLoop m ag fuel s t = some r → mChain m s r.2.2 r.1 := by
  intro fuel
  induction fuel with
  | zero =>
    intro s t r h
    simp [trialLoop] at h
  | succ fuel ih =>
    intro s t r h
    simp only [trialLoop] at h
    split at h
    · rename_i hterm
      cases h
      exact ⟨rfl, hterm⟩
    · rename_i hterm
      split at h
      · cases h
      · rename_i rest hrec
        cases h
        refine ⟨rfl, by simpa using hterm, rfl, rfl, rfl, ?_⟩
        exact ih _ _ _ hrec

omit [Zero ρ] in
lemma mChain_forall (m : MDPSpec σ α ρ) :
    ∀ (s : MDPState σ ρ) (iters : List (MIter σ α ρ)) (sf : MDPState σ ρ),
      mChain m s iters sf →
      ∀ it ∈ iters,
        MDP.is_terminal m it.pre = false ∧
        it.gnaSnap = it.pre ∧ it.prevSnap = it.pre ∧
        MDP.step m it.pre it.action = (it.post, it.reward, it.terminal) := by
  intro s iters
  induction iters generalizing s with
  | nil =>
    intro sf _ it hit
    simp at hit
  | cons it2 rest ih =>
    intro sf h it hit
    obtain ⟨hpre, hterm, hg, hp, hstep, hrest⟩ := h
    rcases List.mem_cons.mp hit with rfl | hmem
    · subst hpre
      exact ⟨hterm, hg, hp, hstep⟩
    · exact ih _ _ hrest it hmem

omit [Zero ρ] in
lemma mChain_timesteps (m : MDPSpec σ α ρ) :
    ∀ (s : MDPState σ ρ) (iters : List (MIter σ α ρ)) (sf : MDPState σ ρ),
      mChain m s iters sf → sf.timesteps = s.timesteps + iters.length := by
  intro s iters
  induction iters generalizing s with
  | nil =>
    intro sf h
    rw [h.1]
    simp
  | cons it rest ih =>
    intro sf h
    obtain ⟨hpre, hterm, hg, hp, hstep, hrest⟩ := h
    have hpost : it.post.timesteps = s.timesteps + 1 := by
      have h2 : it.post = (MDP.step m s it.action).1 := by rw [hstep]
      rw [h2]
      rfl
    rw [ih _ _ hrest, hpost, List.length_cons]
    omega

lemma run_trial_inv (fuel : Nat) (m : MDPSpec σ α ρ) (ag : MDPAgent σ α ρ τ)
    (s : MDPState σ ρ) (t : τ) (r : Nat × MDPState σ ρ × τ × List (MIter σ α ρ))
    (h : _run_trial fuel m ag s t = some r) :
    mChain m (MDP.reset m s) r.2.2.2 r.2.1 ∧ r.1 = r.2.1.timesteps := by
  simp only [_run_trial] at h
  split at h
  · cases h
  · rename_i rr hrr
    cases h
    exact ⟨trialLoop_inv m ag fuel _ _ _ hrr, rfl⟩

lemma mdpLoop_inv (fuel : Nat) (m : MDPSpec σ α ρ) (ag : MDPAgent σ α ρ τ) :
    ∀ (n : Nat) (s : MDPState σ ρ) (t : τ)
      (r : MDPState σ ρ × τ × List (Nat × List (MIter σ α ρ))),
      mdpLoop fuel m ag n s t = some r →
      ∀ pr ∈ r.2.2, ∃ s0 sf,
        mChain m (MDP.reset m s0) pr.2 sf ∧ pr.1 = sf.timesteps := by
  intro n
  induction n with
  | zero =>
    intro s t r h
    simp only [mdpLoop] at h
    cases h
    exact fun pr hpr => absurd hpr (by simp)
  | succ n ih =>
    intro s t r h
    simp only [mdpLoop] at h
    split at h
    · cases h
    · rename_i r1 hr1
      split at h
      · cases h
      · rename_i r2 hr2
        cases h
        intro pr hpr
        rcases List.mem_cons.mp hpr with rfl | hmem
        · obtain ⟨hc, hn⟩ := run_trial_inv fuel m ag s t r1 hr1
          exact ⟨s, r1.2.1, hc, hn⟩
        · exact ih _ _ _ hr2 pr hmem

lemma flatMap_singleton_eq_map {β γ : Type} (f : β → γ) (l : List β) :
    (l.flatMap fun b => [f b]) = l.map f := by
  induction l with
  | nil => rfl
  | cons b l ih => simp [ih]

lemma countP_const_false {β : Type} (l : List β) :
    (l.countP fun _ => false) = 0 := by
  induction l with
  | nil => rfl
  | cons b l ih => simp [List.countP_cons, ih]

lemma filterMap_const_none {β γ : Type} (l : List β) :
    (l.filterMap fun _ => (none : Option γ)) = [] := by
  induction l with
  | nil => rfl
  | cons b l ih => simp [List.filterMap_cons, ih]

omit [Zero ρ] [Add ρ] in
lemma mStepCount_trialTrace (iters : List (MIter σ α ρ)) :
    mStepCount (trialTrace iters) = iters.length := by
  simp [mStepCount, trialTrace, List.countP_cons, List.countP_append,
    countP_flatMap, mIterTrace, sum_map_one]

omit [Zero ρ] [Add ρ] in
lemma mCopyCount_trialTrace (iters : List (MIter σ α ρ)) :
    mCopyCount (trialTrace iters) = 2 * iters.length := by
  simp [mCopyCount, trialTrace, List.countP_cons, List.countP_append,
    countP_flatMap, mIterTrace]
  induction iters with
  | nil => rfl
  | cons it l ih => simp [ih]; ring

omit [Zero ρ] [Add ρ] in
lemma mUpdateCount_trialTrace (iters : List (MIter σ α ρ)) :
    mUpdateCount (trialTrace iters) = iters.length := by
  simp [mUpdateCount, trialTrace, List.countP_cons, List.countP_append,
    countP_flatMap, mIterTrace, sum_map_one]

omit [Zero ρ] [Add ρ] in
lemma mStepTriples_trialTrace (iters : List (MIter σ α ρ)) :
    mStepTriples (trialTrace iters) =
      iters.map fun it => (it.action, it.reward, it.terminal) := by
  simp [mStepTriples, trialTrace, List.filterMap_cons, List.filterMap_append,
    filterMap_flatMap, mIterTrace, flatMap_singleton_eq_map]

omit [Zero ρ] [Add ρ] in
lemma mUpdateTriples_trialTrace (iters : List (MIter σ α ρ)) :
    mUpdateTriples (trialTrace iters) =
      iters.map fun it => (it.action, it.reward, it.terminal) := by
  simp [mUpdateTriples, trialTrace, List.filterMap_cons, List.filterMap_append,
    filterMap_flatMap, mIterTrace, flatMap_singleton_eq_map]

lemma countGameTA_episode (ids : List Nat) (iters : List (GIter σ α)) (w : Nat) :
    countGameTA (episodeTrace ids iters w) = iters.length := by
  simp [countGameTA, episodeTrace, List.countP_cons, List.countP_append,
    countP_flatMap, gIterTrace, List.countP_map, sum_map_one, Function.comp_def,
    countP_const_false]

lemma countSearch_episode (ids : List Nat) (iters : List (GIter σ α)) (w : Nat) :
    countSearch (episodeTrace ids iters w) = iters.length := by
  simp [countSearch, episodeTrace, List.countP_cons, List.countP_append,
    countP_flatMap, gIterTrace, List.countP_map, sum_map_one, Function.comp_def,
    countP_const_false]

lemma winnersOf_episode (ids : List Nat) (iters : List (GIter σ α)) (w : Nat) :
    winnersOf (episodeTrace ids iters w) = [w] := by
  simp [winnersOf, episodeTrace, List.filterMap_cons, List.filterMap_append,
    filterMap_flatMap, gIterTrace, List.filterMap_map, Function.comp_def,
    filterMap_const_none]

lemma countAgentTA_episode (ids : List Nat) (id : Nat) (hid : id ∈ ids)
    (hnd : ids.Nodup) (iters : List (GIter σ α)) (w : Nat)
    (hn : ∀ it ∈ iters, it.notifs = ids.map fun i2 => (i2, i2 == it.flagIdx)) :
    countAgentTA id (episodeTrace ids iters w) = iters.length := by
  simp only [countAgentTA, episodeTrace, List.countP_cons, List.countP_append,
    countP_flatMap]
  have hone : ∀ it ∈ iters,
      (gIterTrace (σ := σ) (α := α) it).countP (fun e => match e with
        | GEvent.agent_take_action id2 _ _ => id2 == id
        | _ => false) = 1 := by
    intro it hit
    simp [gIterTrace, List.countP_cons, List.countP_map, hn it hit,
      Function.comp_def]
    have h2 : (List.countP (fun i2 => i2 == id) ids) = ids.count id := by
      simp [List.count]
    rw [h2, List.count_eq_one_of_mem hnd hid]
  rw [List.map_congr_left hone]
  simp [sum_map_one]

lemma flags_of_range (n : Nat) (it : GIter σ α)
    (hn : it.notifs = (List.range n).map fun id => (id, id == it.flagIdx))
    (hs : (List.range n)[it.actingIdx]? = some it.searcherId)
    (hf : it.flagIdx = it.actingIdx) :
    it.notifs.map Prod.fst = List.range n ∧
    (it.searcherId, true) ∈ it.notifs ∧
    ∀ pr ∈ it.notifs, pr.1 ≠ it.searcherId → pr.2 = false := by
  have hlt : it.actingIdx < n := by
    by_contra hge
    rw [List.getElem?_eq_none (by simpa using Nat.le_of_not_lt hge)] at hs
    cases hs
  have hsid : it.searcherId = it.actingIdx := by
    rw [List.getElem?_range hlt] at hs
    exact (Option.some.inj hs).symm
  refine ⟨?_, ?_, ?_⟩
  · rw [hn, List.map_map]
    simp [Function.comp_def]
  · rw [hn, hsid, hf]
    refine List.mem_map.mpr ⟨it.actingIdx, List.mem_range.mpr hlt, ?_⟩
    simp
  · intro pr hpr hne
    rw [hn] at hpr
    obtain ⟨id2, hid2, heq⟩ := List.mem_map.mp hpr
    cases heq
    rw [hf]
    rw [hsid, hf] at hne
    simpa using hne

/-- Claim C1: for every game and list of agents with a length different
from the game's player count, `run_games` fails immediately with the
configuration error before any episode runs, and it invokes no other game
or agent operation (the call trace of the outcome is empty: no reset,
search, copy, take_action or get_winning_id call). -/
theorem claim1_config_error (fuel : Nat) (game : Game σ α)
    (agents : List (Agent σ α τ × τ)) (time_allowed num_games : Nat) (s : σ)
    (h : agents.length ≠ game.NUM_PLAYERS) :
    run_games fuel game agents time_allowed num_games s =
      RunOutcome.configError wrongAgentsMsg ∧
    run_gamesTrace (agentIds agents)
      (run_games fuel game agents time_allowed num_games s) = [] := by
  have h1 : run_games fuel game agents time_allowed num_games s =
      RunOutcome.configError wrongAgentsMsg := by
    simp only [run_games]
    rw [if_pos h]
  refine ⟨h1, ?_⟩
  rw [h1]
  rfl

/-- Witness for claim C1 at a concrete mismatched configuration: zero
agents against the 2-player game `c6game`. -/
theorem claim1_witness :
    ([] : List (Agent Nat Nat Nat × Nat)).length ≠ c6game.NUM_PLAYERS ∧
    (run_games 1 c6game ([] : List (Agent Nat Nat Nat × Nat)) 0 1 0 =
       RunOutcome.configError wrongAgentsMsg ∧
     run_gamesTrace (agentIds ([] : List (Agent Nat Nat Nat × Nat)))
       (run_games 1 c6game ([] : List (Agent Nat Nat Nat × Nat)) 0 1 0) = []) :=
  ⟨by decide, claim1_config_error 1 c6game [] 0 1 0 (by decide)⟩

/-- Counterexample to claim C2 as stated: with the 1-player game `cexGame`
and a single agent whose agent_id is 5 (not its list position 0),
`run_games` completes one episode with exactly one state transition, but
the only take_action notification delivered carries the own-action flag
false — no agent at all receives the flag true, although the agent at
position 0 searched and produced the action. -/
theorem claim2_counterexample :
    (match run_games 2 cexGame cexAgents 0 1 0 with
      | RunOutcome.ok r => some (r.2.2.map
          (fun (pr : List (GIter Nat Nat) × Nat) =>
            pr.1.map fun (it : GIter Nat Nat) => it.notifs))
      | _ => none) = some [[[(5, false)]]] ∧
    (([((5 : Nat), false)] : List (Nat × Bool)).countP fun nt => nt.2) = 0 :=
  ⟨rfl, rfl⟩

/-- Claim C2 (amended): for every completed game episode run by
`run_games`, the number of take_action notifications delivered to each
agent equals the number of state transitions applied to the game — with no
side condition: each transition applies exactly one game transition and
delivers exactly one notification to every agent, in agent-list order;
moreover, provided every agent's agent_id equals its position in the
agents list, for each transition exactly one agent — the acting agent,
whose search produced the action — receives the own-action flag true while
every other agent receives false.  (Without that proviso the flag is
computed from agent_id alone and can miss the acting agent, see the
counterexample.) -/
theorem claim2_amended (fuel : Nat) (game : Game σ α)
    (agents : List (Agent σ α τ × τ)) (time_allowed num_games : Nat) (s : σ)
    (r : σ × List (Agent σ α τ × τ) × List (List (GIter σ α) × Nat))
    (h : run_games fuel game agents time_allowed num_games s =
      RunOutcome.ok r) :
    ∀ pr ∈ r.2.2,
      (countGameTA (episodeTrace (agentIds agents) pr.1 pr.2) = pr.1.length ∧
       ∀ it ∈ pr.1, it.notifs.map Prod.fst = agentIds agents) ∧
      (agentIds agents = List.range agents.length →
        (∀ id ∈ agentIds agents,
          countAgentTA id (episodeTrace (agentIds agents) pr.1 pr.2) =
            countGameTA (episodeTrace (agentIds agents) pr.1 pr.2)) ∧
        ∀ it ∈ pr.1,
          (it.searcherId, true) ∈ it.notifs ∧
          ∀ nt ∈ it.notifs, nt.1 ≠ it.searcherId → nt.2 = false) := by
  obtain ⟨hlen, hloop⟩ :=
    run_games_ok fuel game agents time_allowed num_games s r h
  obtain ⟨ha, hall⟩ :=
    gamesLoop_inv fuel game time_allowed num_games s agents r hloop
  intro pr hpr
  obtain ⟨s0, sf, hc, hw⟩ := hall pr hpr
  have hfacts := gChain_forall game (agentIds agents) _ _ _ hc
  refine ⟨⟨countGameTA_episode _ _ _, ?_⟩, ?_⟩
  · intro it hit
    have hnot := (hfacts it hit).2.2.2.2.2.2
    rw [hnot, List.map_map]
    simp [Function.comp_def]
  · intro hids
    constructor
    · intro id hid
      rw [countGameTA_episode]
      refine countAgentTA_episode _ id hid ?_ pr.1 pr.2 ?_
      · rw [hids]
        exact List.nodup_range _
      · intro it hit
        exact (hfacts it hit).2.2.2.2.2.2
    · intro it hit
      obtain ⟨hterm, hact, hsid, hsnap, hflag, hpost, hnot⟩ := hfacts it hit
      rw [hids] at hsid hnot
      obtain ⟨hfst, hmem, hoth⟩ :=
        flags_of_range agents.length it hnot hsid hflag
      exact ⟨hmem, hoth⟩

/-- Witness for the amended claim C2 at the concrete 2-player scenario
game, instantiated at its single completed episode. -/
theorem claim2_amended_witness :
    (countGameTA (episodeTrace (agentIds c6agents) c6iters 7) =
       c6iters.length ∧
     ∀ it ∈ c6iters, it.notifs.map Prod.fst = agentIds c6agents) ∧
    (agentIds c6agents = List.range c6agents.length →
      (∀ id ∈ agentIds c6agents,
        countAgentTA id (episodeTrace (agentIds c6agents) c6iters 7) =
          countGameTA (episodeTrace (agentIds c6agents) c6iters 7)) ∧
      ∀ it ∈ c6iters,
        (it.searcherId, true) ∈ it.notifs ∧
        ∀ nt ∈ it.notifs, nt.1 ≠ it.searcherId → nt.2 = false) :=
  claim2_amended 5 c6game c6agents 9 1 0 _ rfl (c6iters, 7)
    (List.mem_cons_self _ _)

/-- Claim C3: for every completed MDP trial run by `run_mdp`, the
timesteps value reported at trial end equals the number of step calls made
on the MDP during that trial, and the agent's update is invoked exactly
once per step call, receiving the same reward, action and terminal flag
that the corresponding step produced or consumed. -/
theorem claim3_step_update_match (fuel : Nat) (m : MDPSpec σ α ρ)
    (ag : MDPAgent σ α ρ τ) (num_trials : Nat) (s : MDPState σ ρ) (t : τ)
    (r : MDPState σ ρ × τ × List (Nat × List (MIter σ α ρ)))
    (h : run_mdp fuel m ag num_trials s t = RunOutcome.ok r) :
    ∀ pr ∈ r.2.2,
      pr.1 = mStepCount (trialTrace pr.2) ∧
      mUpdateCount (trialTrace pr.2) = mStepCount (trialTrace pr.2) ∧
      mUpdateTriples (trialTrace pr.2) = mStepTriples (trialTrace pr.2) := by
  have hloop : mdpLoop fuel m ag num_trials s t = some r := by
    simp only [run_mdp] at h
    split at h
    · cases h
    · rename_i rr hrr
      cases h
      exact hrr
  intro pr hpr
  obtain ⟨s0, sf, hc, hn⟩ :=
    mdpLoop_inv fuel m ag num_trials s t r hloop pr hpr
  have hts := mChain_timesteps m _ _ _ hc
  refine ⟨?_, ?_, ?_⟩
  · rw [hn, hts, mStepCount_trialTrace]
    simp [MDP.reset]
  · rw [mUpdateCount_trialTrace, mStepCount_trialTrace]
  · rw [mUpdateTriples_trialTrace, mStepTriples_trialTrace]

/-- Witness for claim C3 at the concrete 5-step MDP scenario. -/
theorem claim3_witness :
    run_mdp 7 c7mdp c7agent 1 c7start () =
      RunOutcome.ok (c7final, (), [(5, c7iters)]) ∧
    ∀ pr ∈ [((5 : Nat), c7iters)],
      pr.1 = mStepCount (trialTrace pr.2) ∧
      mUpdateCount (trialTrace pr.2) = mStepCount (trialTrace pr.2) ∧
      mUpdateTriples (trialTrace pr.2) = mStepTriples (trialTrace pr.2) :=
  ⟨rfl, claim3_step_update_match 7 c7mdp c7agent 1 c7start () _ rfl⟩

/-- Claim C4: in every iteration of the MDP trial loop, the pre-transition
snapshot `prev_state` passed to the agent's update equals the live MDP
state immediately before the step was applied, and the post-state, reward
and terminal flag passed to the same update are exactly the result of
stepping from that snapshot — the update always sees a causally consistent
pre-state/post-state pair, with no information from the next step inside
the snapshot. -/
theorem claim4_prev_state_before_step (fuel : Nat) (m : MDPSpec σ α ρ)
    (ag : MDPAgent σ α ρ τ) (s : MDPState σ ρ) (t : τ)
    (r : Nat × MDPState σ ρ × τ × List (MIter σ α ρ))
    (h : _run_trial fuel m ag s t = some r) :
    ∀ it ∈ r.2.2.2,
      it.prevSnap = it.pre ∧
      MDP.step m it.prevSnap it.action = (it.post, it.reward, it.terminal) := by
  obtain ⟨hc, _⟩ := run_trial_inv fuel m ag s t r h
  intro it hit
  obtain ⟨_, hg, hp, hstep⟩ := mChain_forall m _ _ _ hc it hit
  refine ⟨hp, ?_⟩
  rw [hp]
  exact hstep

/-- Witness for claim C4 at the concrete 5-step MDP scenario. -/
theorem claim4_witness :
    _run_trial 7 c7mdp c7agent c7start () = some (5, c7final, (), c7iters) ∧
    ∀ it ∈ c7iters,
      it.prevSnap = it.pre ∧
      MDP.step c7mdp it.prevSnap it.action =
        (it.post, it.reward, it.terminal) :=
  ⟨rfl, claim4_prev_state_before_step 7 c7mdp c7agent c7start () _ rfl⟩

/-- Claim C10: in every iteration of the MDP trial loop the driver calls
`mdp.copy()` twice — the trace of a completed trial contains exactly two
copy calls per step call — and both snapshots equal the live MDP state
immediately before the step: the first is the one passed to
`get_next_action`, the second is taken after `get_next_action` returns and
becomes the `prev_state` passed to update, and the step is applied to
exactly that state. -/
theorem claim10_two_copies (fuel : Nat) (m : MDPSpec σ α ρ)
    (ag : MDPAgent σ α ρ τ) (s : MDPState σ ρ) (t : τ)
    (r : Nat × MDPState σ ρ × τ × List (MIter σ α ρ))
    (h : _run_trial fuel m ag s t = some r) :
    mCopyCount (trialTrace r.2.2.2) = 2 * mStepCount (trialTrace r.2.2.2) ∧
    ∀ it ∈ r.2.2.2,
      it.gnaSnap = MDP.copy m it.pre ∧ it.prevSnap = MDP.copy m it.pre ∧
      MDP.step m it.pre it.action = (it.post, it.reward, it.terminal) := by
  obtain ⟨hc, _⟩ := run_trial_inv fuel m ag s t r h
  refine ⟨?_, ?_⟩
  · rw [mCopyCount_trialTrace, mStepCount_trialTrace]
  · intro it hit
    obtain ⟨_, hg, hp, hstep⟩ := mChain_forall m _ _ _ hc it hit
    exact ⟨hg, hp, hstep⟩

/-- Witness for claim C10 at the concrete 5-step MDP scenario. -/
theorem claim10_witness :
    _run_trial 7 c7mdp c7agent c7start () = some (5, c7final, (), c7iters) ∧
    (mCopyCount (trialTrace c7iters) = 2 * mStepCount (trialTrace c7iters) ∧
     ∀ it ∈ c7iters,
       it.gnaSnap = MDP.copy c7mdp it.pre ∧
       it.prevSnap = MDP.copy c7mdp it.pre ∧
       MDP.step c7mdp it.pre it.action =
         (it.post, it.reward, it.terminal)) :=
  ⟨rfl, claim10_two_copies 7 c7mdp c7agent c7start () _ rfl⟩

/-- Claim C5: every snapshot an agent receives via the environment's copy
operation equals the environment state frozen at the moment of the copy
call, and applying the subsequent mutation (take_action in game mode, step
in MDP mode) produces the next live state without changing the snapshot:
the iteration records below are part of the value returned after the whole
run, and the snapshot fields still equal the pre-transition state there,
while the post fields hold the mutated state.  In this value-semantics
embedding of the spec-modelled copy(), isolation of the returned snapshot
from later driver operations holds by construction. -/
theorem claim5_snapshot_isolation (fuelg : Nat) (game : Game σ α) (sg : σ)
    (agents : List (Agent σ α τ × τ)) (time_allowed : Nat)
    (rg : σ × List (Agent σ α τ × τ) × List (GIter σ α) × Nat)
    {σ2 α2 ρ2 τ2 : Type} [Zero ρ2] [Add ρ2]
    (fuelm : Nat) (m : MDPSpec σ2 α2 ρ2) (ag : MDPAgent σ2 α2 ρ2 τ2)
    (sm : MDPState σ2 ρ2) (t : τ2)
    (rm : Nat × MDPState σ2 ρ2 × τ2 × List (MIter σ2 α2 ρ2))
    (hg : _run_game fuelg game sg agents time_allowed = some rg)
    (hm : _run_trial fuelm m ag sm t = some rm) :
    (∀ it ∈ rg.2.2.1,
      it.snapshot = Game.copy game it.pre ∧ it.snapshot = it.pre ∧
      it.post = game.take_action it.pre it.action) ∧
    (∀ it ∈ rm.2.2.2,
      it.gnaSnap = MDP.copy m it.pre ∧ it.prevSnap = MDP.copy m it.pre ∧
      it.gnaSnap = it.pre ∧ it.prevSnap = it.pre ∧
      it.post = (MDP.step m it.pre it.action).1) := by
  constructor
  · obtain ⟨_, hc, _⟩ :=
      run_game_inv fuelg game sg agents time_allowed rg hg
    intro it hit
    obtain ⟨_, _, _, hsnap, _, hpost, _⟩ :=
      gChain_forall game _ _ _ _ hc it hit
    exact ⟨hsnap, hsnap, hpost⟩
  · obtain ⟨hc, _⟩ := run_trial_inv fuelm m ag sm t rm hm
    intro it hit
    obtain ⟨_, hgna, hp, hstep⟩ := mChain_forall m _ _ _ hc it hit
    refine ⟨hgna, hp, hgna, hp, ?_⟩
    rw [hstep]

/-- Witness for claim C5 at the concrete 2-player game scenario and the
concrete 5-step MDP scenario. -/
theorem claim5_witness :
    _run_game 5 c6game 0 c6agents 9 = some (3, [(stubAgent 0, 2), (stubAgent 1, 1)], c6iters, 7) ∧
    _run_trial 7 c7mdp c7agent c7start () = some (5, c7final, (), c7iters) ∧
    ((∀ it ∈ c6iters,
       it.snapshot = Game.copy c6game it.pre ∧ it.snapshot = it.pre ∧
       it.post = c6game.take_action it.pre it.action) ∧
     (∀ it ∈ c7iters,
       it.gnaSnap = MDP.copy c7mdp it.pre ∧
       it.prevSnap = MDP.copy c7mdp it.pre ∧
       it.gnaSnap = it.pre ∧ it.prevSnap = it.pre ∧
       it.post = (MDP.step c7mdp it.pre it.action).1)) :=
  ⟨rfl, rfl,
   claim5_snapshot_isolation 5 c6game 0 c6agents 9 _ 7 c7mdp c7agent c7start ()
     _ rfl rfl⟩

/-- Claim C6: for the deterministic 2-player game `c6game`, terminal after
exactly 3 applied moves, `run_games` with num_games 1 completes and
produces exactly 3 action-transitions, delivers exactly 3 take_action
notifications to each of the two agents with the own/not-own flags
alternating with the acting side, and reports exactly one winner id, 7,
equal to the game's hardcoded terminal outcome. -/
theorem claim6_three_move_scenario :
    (match run_games 5 c6game c6agents 9 1 0 with
      | RunOutcome.ok r => some (r.2.2.map
          (fun (pr : List (GIter Nat Nat) × Nat) =>
            (pr.1.length, pr.1.map fun (it : GIter Nat Nat) => it.notifs,
             pr.2)))
      | _ => none) =
      some [(3, [[(0, true), (1, false)], [(0, false), (1, true)],
                 [(0, true), (1, false)]], 7)] ∧
    countGameTA (run_gamesTrace (agentIds c6agents)
      (run_games 5 c6game c6agents 9 1 0)) = 3 ∧
    countSearch (run_gamesTrace (agentIds c6agents)
      (run_games 5 c6game c6agents 9 1 0)) = 3 ∧
    countAgentTA 0 (run_gamesTrace (agentIds c6agents)
      (run_games 5 c6game c6agents 9 1 0)) = 3 ∧
    countAgentTA 1 (run_gamesTrace (agentIds c6agents)
      (run_games 5 c6game c6agents 9 1 0)) = 3 ∧
    winnersOf (run_gamesTrace (agentIds c6agents)
      (run_games 5 c6game c6agents 9 1 0)) = [7] ∧
    c6game.get_winning_id 3 = 7 :=
  ⟨rfl, rfl, rfl, rfl, rfl, rfl, rfl⟩

/-- Claim C7: for the deterministic MDP `c7mdp`, whose trajectory reaches a
terminal state after exactly 5 steps with constant reward 1 per step
(the spec's reward 1.0 embedded exactly as the integer 1), one trial
reports timesteps 5 and a cumulative total_reward of 5. -/
theorem claim7_five_step_scenario :
    ((_run_trial 7 c7mdp c7agent c7start ()).map
      (fun r => (r.1, MDP.total_reward r.2.1))) = some (5, (5 : Int)) ∧
    MDP.is_terminal c7mdp c7final = true :=
  ⟨rfl, rfl⟩

/-- Claim C9: in either driver, if the environment reports terminal
immediately after reset, the episode body performs zero transitions and
zero agent queries.  In game mode the episode returns with an empty
iteration list — so the derived call trace contains no search, no copy and
no take_action call — yet the winning id is still read from the reset
state; in MDP mode the trial makes no step and no update call and returns
`mdp.timesteps` exactly as it stands after the reset. -/
theorem claim9_immediate_terminal (fuelg : Nat) (game : Game σ α) (sg : σ)
    (agents : List (Agent σ α τ × τ)) (time_allowed : Nat)
    {σ2 α2 ρ2 τ2 : Type} [Zero ρ2] [Add ρ2]
    (fuelm : Nat) (m : MDPSpec σ2 α2 ρ2) (ag : MDPAgent σ2 α2 ρ2 τ2)
    (sm : MDPState σ2 ρ2) (t : τ2)
    (hfg : 0 < fuelg) (hg : game.is_terminal (game.reset sg) = true)
    (hfm : 0 < fuelm) (hm : MDP.is_terminal m (MDP.reset m sm) = true) :
    (_run_game fuelg game sg agents time_allowed =
       some (game.reset sg, agents.map fun p => (p.1, p.1.reset p.2), [],
         game.get_winning_id (game.reset sg)) ∧
     countSearch (episodeTrace (agentIds agents) ([] : List (GIter σ α))
       (game.get_winning_id (game.reset sg))) = 0 ∧
     countGameTA (episodeTrace (agentIds agents) ([] : List (GIter σ α))
       (game.get_winning_id (game.reset sg))) = 0 ∧
     winnersOf (episodeTrace (agentIds agents) ([] : List (GIter σ α))
       (game.get_winning_id (game.reset sg))) =
         [game.get_winning_id (game.reset sg)]) ∧
    (_run_trial fuelm m ag sm t =
       some (MDP.timesteps (MDP.reset m sm), MDP.reset m sm, t, []) ∧
     mStepCount (trialTrace ([] : List (MIter σ2 α2 ρ2))) = 0 ∧
     mUpdateCount (trialTrace ([] : List (MIter σ2 α2 ρ2))) = 0 ∧
     mCopyCount (trialTrace ([] : List (MIter σ2 α2 ρ2))) = 0) := by
  cases fuelg with
  | zero => exact absurd hfg (by omega)
  | succ fg =>
    cases fuelm with
    | zero => exact absurd hfm (by omega)
    | succ fm =>
      refine ⟨⟨?_, ?_, ?_, ?_⟩, ⟨?_, ?_, ?_, ?_⟩⟩
      · simp [_run_game, gameLoop, hg]
      · exact countSearch_episode _ [] _
      · exact countGameTA_episode _ [] _
      · exact winnersOf_episode _ [] _
      · simp [_run_trial, trialLoop, hm]
      · exact mStepCount_trialTrace []
      · exact mUpdateCount_trialTrace []
      · exact mCopyCount_trialTrace []

/-- Witness for claim C9 at a game and an MDP that are terminal
immediately after reset. -/
theorem claim9_witness :
    (0 < 1 ∧ c9game.is_terminal (c9game.reset 0) = true ∧ 0 < 1 ∧
     MDP.is_terminal c9mdp (MDP.reset c9mdp c7start) = true) ∧
    ((_run_game 1 c9game 0 c6agents 9 =
        some (c9game.reset 0, c6agents.map fun p => (p.1, p.1.reset p.2), [],
          c9game.get_winning_id (c9game.reset 0)) ∧
      countSearch (episodeTrace (agentIds c6agents) ([] : List (GIter Nat Nat))
        (c9game.get_winning_id (c9game.reset 0))) = 0 ∧
      countGameTA (episodeTrace (agentIds c6agents) ([] : List (GIter Nat Nat))
        (c9game.get_winning_id (c9game.reset 0))) = 0 ∧
      winnersOf (episodeTrace (agentIds c6agents) ([] : List (GIter Nat Nat))
        (c9game.get_winning_id (c9game.reset 0))) =
          [c9game.get_winning_id (c9game.reset 0)]) ∧
     (_run_trial 1 c9mdp c7agent c7start () =
        some (MDP.timesteps (MDP.reset c9mdp c7start),
          MDP.reset c9mdp c7start, (), []) ∧
      mStepCount (trialTrace ([] : List (MIter Nat Nat Int))) = 0 ∧
      mUpdateCount (trialTrace ([] : List (MIter Nat Nat Int))) = 0 ∧
      mCopyCount (trialTrace ([] : List (MIter Nat Nat Int))) = 0)) :=
  ⟨⟨by decide, by decide, by decide, by decide⟩,
   claim9_immediate_terminal 1 c9game 0 c6agents 9 1 c9mdp c7agent c7start ()
     (by decide) (by decide) (by decide) (by decide)⟩

lemma probe_completes {α2 τ2 : Type} (agents : List (Agent Nat α2 τ2 × τ2))
    (i : Nat) (p1 : Agent Nat α2 τ2 × τ2)
    (hget : (agents.map fun p => (p.1, p.1.reset p.2))[i]? = some p1) :
    ∃ r, _run_game 2 (probeGame α2 agents.length i) 0 agents 0 = some r := by
  suffices h : (_run_game 2 (probeGame α2 agents.length i) 0 agents 0).isSome by
    obtain ⟨r, hr⟩ := Option.isSome_iff_exists.mp h
    exact ⟨r, hr⟩
  simp [_run_game, gameLoop, probeGame, _advance_by_action, hget]

/-- Claim C8: in `run_games`, for every transition the acting agent whose
search is invoked is selected by list position at the pre-transition
current agent index, while the own-action flag passed to each agent's
take_action is computed as agent_id == pre-transition current_agent_id (the
first conjunct); consequently the flag is true for the agent that actually
searched — and false for all the others — in all completed episodes of all
games if and only if every agent's agent_id equals its index in the agents
list (the second conjunct). -/
theorem claim8_flag_vs_index {α2 τ2 : Type}
    (agents : List (Agent Nat α2 τ2 × τ2)) :
    (∀ (game : Game Nat α2) (fuel time_allowed s : Nat)
       (r : Nat × List (Agent Nat α2 τ2 × τ2) × List (GIter Nat α2) × Nat),
       _run_game fuel game s agents time_allowed = some r →
       ∀ it ∈ r.2.2.1,
         it.actingIdx = game.current_agent_id it.pre ∧
         (agentIds agents)[it.actingIdx]? = some it.searcherId ∧
         it.flagIdx = it.actingIdx ∧
         it.notifs = (agentIds agents).map fun id => (id, id == it.flagIdx)) ∧
    (ownFlagsCorrect agents ↔ agentIds agents = List.range agents.length) := by
  refine ⟨?_, ?_, ?_⟩
  · intro game fuel time_allowed s r h it hit
    obtain ⟨_, hc, _⟩ := run_game_inv fuel game s agents time_allowed r h
    obtain ⟨_, hact, hsid, _, hflag, _, hnot⟩ :=
      gChain_forall game _ _ _ _ hc it hit
    exact ⟨hact, hsid, hflag, hnot⟩
  · intro hof
    apply List.ext_getElem?
    intro i
    by_cases hi : i < agents.length
    · have hga : (agents.map fun p => (p.1, p.1.reset p.2))[i]? =
          some ((agents[i]).1, (agents[i]).1.reset (agents[i]).2) := by
        simp [List.getElem?_map, List.getElem?_eq_getElem, hi]
      obtain ⟨r, hr⟩ := probe_completes agents i _ hga
      obtain ⟨_, hc, _⟩ :=
        run_game_inv 2 (probeGame α2 agents.length i) 0 agents 0 r hr
      rcases hiters : r.2.2.1 with _ | ⟨it, rest⟩
      · rw [hiters] at hc
        have hterm := hc.2
        simp [probeGame] at hterm
      · rw [hiters] at hc
        obtain ⟨hpre, hterm, hact, hsid, hsnap, hflag, hpost, hnot, _⟩ := hc
        have hff := hof (probeGame α2 agents.length i) 2 0 0 r hr it
          (by rw [hiters]; exact List.mem_cons_self _ _)
        obtain ⟨hmem, _⟩ := hff
        rw [hnot] at hmem
        obtain ⟨id2, hid2, heq⟩ := List.mem_map.mp hmem
        have h1 : id2 = it.searcherId := congrArg Prod.fst heq
        have h2 : (id2 == it.flagIdx) = true := congrArg Prod.snd heq
        have h3 : id2 = it.flagIdx := by simpa using h2
        have hflagi : it.flagIdx = i := hflag
        have hacti : it.actingIdx = i := hact
        rw [hacti] at hsid
        rw [hsid, List.getElem?_range hi]
        rw [← h1, h3, hflagi]
    · have hn1 : (agentIds agents)[i]? = none :=
        List.getElem?_eq_none (by simp [agentIds]; omega)
      have hn2 : (List.range agents.length)[i]? = none :=
        List.getElem?_eq_none (by simp; omega)
      rw [hn1, hn2]
  · intro hids game fuel time_allowed s r h it hit
    obtain ⟨_, hc, _⟩ := run_game_inv fuel game s agents time_allowed r h
    obtain ⟨_, _, hsid, _, hflag, _, hnot⟩ :=
      gChain_forall game _ _ _ _ hc it hit
    rw [hids] at hsid hnot
    obtain ⟨_, hmem, hoth⟩ := flags_of_range agents.length it hnot hsid hflag
    exact ⟨hmem, hoth⟩

/-- Witness for claim C8: the two scenario agents have agent ids equal to
their list positions, so by the equivalence their own-action flags are
correct in every completed episode of every game. -/
theorem claim8_witness : ownFlagsCorrect c6agents :=
  (claim8_flag_vs_index c6agents).2.mpr (by decide)
